import Mathlib

/-!
Verification development for the MQTT ↔ GPIO bridge of this repository
(`mqtt_gpio/main.py`, duplicated under `src/services/mqtt_gpio/main.py`).

The bridge's pure logic is embedded shallowly:

* the module-level dictionaries `NEXT_CHANGE` and `DISABLE_PIN_CALLBACK`
  become the fields of `BridgeState` (association lists, mirroring dict
  update semantics via `dictSet`);
* the handlers `on_message`, `pin_callback`, `on_connect` and the startup
  sequence of `main` become functions from their inputs and the ambient
  globals (mapping, hostname, cooldown, current time) to a new state plus
  a list of externally visible events (`Event`) and an optional raised
  exception (`PyError`);
* timestamps are modelled as integers: the code compares wall-clock floats
  and adds the integral cooldown to them, and only order and addition are
  relevant to the properties proved here;
* logging calls are not modelled (they produce no state change and no
  MQTT traffic).
-/

namespace MqttGpio

/-- Python values occurring in the `ON_VALUES` / `OFF_VALUES` tuples. -/
inductive PyVal where
  | bool (b : Bool)
  | int (n : Int)
  | str (s : String)
deriving DecidableEq

/-- Python `==` on the values above (`True == 1` holds, `"1" == 1` does not). -/
def pyEq : PyVal → PyVal → Bool
  | .bool a, .bool b => a == b
  | .bool a, .int n => (if a then (1 : Int) else 0) == n
  | .int n, .bool a => n == (if a then (1 : Int) else 0)
  | .int m, .int n => m == n
  | .str s, .str t => s == t
  | _, _ => false

/-- Python `in` over a tuple of values. -/
def pyMem (v : PyVal) (l : List PyVal) : Bool := l.any (pyEq v)

/-- `ON_VALUES: Final = (True, 1, "1", "on", "true", "True")`. -/
def ON_VALUES : List PyVal :=
  [.bool true, .int 1, .str "1", .str "on", .str "true", .str "True"]

/-- `OFF_VALUES: Final = (False, 0, "0", "off", "false", "False")`. -/
def OFF_VALUES : List PyVal :=
  [.bool false, .int 0, .str "0", .str "off", .str "false", .str "False"]

/-- The character class `[a-z0-9]` of `KEBAB_PATTERN`. -/
def isSegChar (c : Char) : Bool := ('a' ≤ c && c ≤ 'z') || ('0' ≤ c && c ≤ '9')

/-- Scanner for hyphen-separated `[a-z0-9]` segments: accepts nonempty
alphanumeric segments joined by single hyphens, with no leading or trailing
hyphen. The flag records whether the scan is currently inside a segment
(so that a hyphen is only legal right after a segment character). -/
def kebabScan : List Char → Bool → Bool
  | [], inSeg => inSeg
  | c :: cs, inSeg =>
    if isSegChar c then kebabScan cs true
    else if c = '-' then inSeg && kebabScan cs false
    else false

/-- `KEBAB_PATTERN.fullmatch` for `KEBAB_PATTERN = re.compile(r"^(?:[a-z0-9]+-?)+[a-z0-9]+$")`.
The pattern's language is: nonempty `[a-z0-9]` segments joined by single
hyphens, of total length at least two (the mandatory group iteration and the
mandatory final `[a-z0-9]+` each consume at least one character, so a
one-character name is rejected by the regex). -/
def kebabFullmatch (s : String) : Bool :=
  kebabScan s.data false && decide (2 ≤ s.data.length)

/-- Exceptions raised by the bridge's handlers. The message text carried by
the Python exceptions is not modelled, only the exception class. -/
inductive PyError where
  | valueError
  | keyError
deriving DecidableEq

instance {ε α : Type} [DecidableEq ε] [DecidableEq α] : DecidableEq (Except ε α) :=
  fun a b =>
  match a, b with
  | .error e₁, .error e₂ =>
    if h : e₁ = e₂ then .isTrue (by rw [h])
    else .isFalse (fun hc => h (Except.error.inj hc))
  | .error _, .ok _ => .isFalse (fun hc => Except.noConfusion hc)
  | .ok _, .error _ => .isFalse (fun hc => Except.noConfusion hc)
  | .ok a₁, .ok a₂ =>
    if h : a₁ = a₂ then .isTrue (by rw [h])
    else .isFalse (fun hc => h (Except.ok.inj hc))

/-- `NewPinState` (`IntEnum`): `OFF = 0`, `ON = 1`, `WATCHDOG_TIMEOUT_NO_CHANGE = 2`. -/
inductive NewPinState where
  | OFF
  | ON
  | WATCHDOG_TIMEOUT_NO_CHANGE
deriving DecidableEq

/-- Python `bool(level)` on a `NewPinState` member: truthiness of its integer value. -/
def levelBool : NewPinState → Bool
  | .OFF => false
  | .ON => true
  | .WATCHDOG_TIMEOUT_NO_CHANGE => true

/-- Externally visible effects of the handlers, in program order. -/
inductive Event where
  | sleep (secs : Int)
  | armSuppression (gpio : Nat)
  | pinWrite (gpio : Nat) (level : Bool) (t : Int)
  | publish (topic : String) (payload : Bool) (retain : Bool) (qos : Nat)
  | mqttConnect
  | subscribe (topic : String) (qos : Nat)
  | registerCallback (gpio : Nat)
  | loopForever
deriving DecidableEq

/-- The module-level mutable dictionaries `NEXT_CHANGE` (pin ↦ epoch time after
which the pin may next be changed) and `DISABLE_PIN_CALLBACK` (pin ↦ whether the
next outgoing MQTT message for the pin is suppressed). -/
structure BridgeState where
  nextChange : List (Nat × Int)
  disablePinCallback : List (Nat × Bool)
deriving DecidableEq

/-- Python dict assignment `d[k] = v`: replace the value of an existing key in
place, else append the new binding. -/
def dictSet {α : Type} (l : List (Nat × α)) (k : Nat) (v : α) : List (Nat × α) :=
  match l with
  | [] => [(k, v)]
  | (k', v') :: rest => if k' = k then (k, v) :: rest else (k', v') :: dictSet rest k v

/-- `topic.split("/")[-1]`: the suffix of the string after its last `'/'`
(the whole string if it has none), accumulated character by character. -/
def lastSegAux : List Char → List Char → List Char
  | [], acc => acc
  | c :: cs, acc => if c = '/' then lastSegAux cs [] else lastSegAux cs (acc ++ [c])

/-- `topic.split("/")[-1]` as a string operation. -/
def lastSeg (s : String) : String := ⟨lastSegAux s.data []⟩

/-- The topic string `f"/homeassistant/{HOSTNAME}/gpio/{suffix}"`. -/
def mkTopic (hostname suffix : String) : String :=
  "/homeassistant/" ++ hostname ++ "/gpio/" ++ suffix

/-- `get_topic(pin)`: reverse lookup of the first mapping entry with the given
pin number (`next((k for k, v in MAPPING.items() if v == pin), None)`); raises
`ValueError` when no entry is found, when the found suffix is falsy (empty),
or when the suffix fails `KEBAB_PATTERN.fullmatch`. -/
def get_topic (m : List (String × Nat)) (hostname : String) (pin : Nat) :
    Except PyError String :=
  match m.find? (fun kv => kv.2 == pin) with
  | none => .error .valueError
  | some kv =>
    if kv.1 = "" then .error .valueError
    else if kebabFullmatch kv.1 then .ok (mkTopic hostname kv.1)
    else .error .valueError

/-- `get_pin(topic)`: `MAPPING[topic.split("/")[-1]]`; a missing key raises
`KeyError`. -/
def get_pin (m : List (String × Nat)) (topic : String) : Except PyError Nat :=
  match m.lookup (lastSeg topic) with
  | none => .error .keyError
  | some p => .ok p

/-- `target_state = value in ON_VALUES` for a decoded (string) payload. -/
def target_state (payload : String) : Bool := pyMem (.str payload) ON_VALUES

/-- Result of running one handler: the new global state, the emitted effects in
program order, and the exception propagating out of the handler, if any. -/
structure HandlerOut where
  state : BridgeState
  events : List Event
  error : Option PyError
deriving DecidableEq

/-- `on_message`: validate the decoded payload against `ON_VALUES + OFF_VALUES`
(raising `ValueError` otherwise), resolve the pin via `get_pin` (a `KeyError`
propagates), short-circuit when the pin already reads the target state,
otherwise sleep out any remaining cooldown (`NEXT_CHANGE.get(gpio, 0)`), set
`DISABLE_PIN_CALLBACK[gpio] = True` and write the pin. `read` models
`PI.read`; the write is stamped with the wall-clock time at which it happens
(after the optional sleep). The handler never touches `NEXT_CHANGE` or the
cooldown value: it only reads the recorded deadline. -/
def on_message (m : List (String × Nat)) (read : Nat → Bool)
    (st : BridgeState) (topic payload : String) (now : Int) : HandlerOut :=
  if pyMem (.str payload) (ON_VALUES ++ OFF_VALUES) = false then
    { state := st, events := [], error := some .valueError }
  else
    match get_pin m topic with
    | .error e => { state := st, events := [], error := some e }
    | .ok gpio =>
      if read gpio = target_state payload then
        { state := st, events := [], error := none }
      else
        let timeToWait := (st.nextChange.lookup gpio).getD 0 - now
        { state := { st with
            disablePinCallback := dictSet st.disablePinCallback gpio true },
          events :=
            (if 0 < timeToWait then [Event.sleep timeToWait] else []) ++
              [Event.armSuppression gpio,
               Event.pinWrite gpio (target_state payload)
                 (if 0 < timeToWait then now + timeToWait else now)],
          error := none }

/-- `pin_callback(gpio, level, tick)`: return immediately on a watchdog
notification; otherwise set `NEXT_CHANGE[gpio] = now + COOLDOWN`, then either
consume the suppression flag (no publish) or publish `bool(level)` to the
pin's topic with `retain=True, qos=2` (a `ValueError` from `get_topic`
propagates). -/
def pin_callback (m : List (String × Nat)) (hostname : String) (cooldown : Int)
    (st : BridgeState) (gpio : Nat) (level : NewPinState) (now : Int) : HandlerOut :=
  if level = NewPinState.WATCHDOG_TIMEOUT_NO_CHANGE then
    { state := st, events := [], error := none }
  else
    let st1 : BridgeState :=
      { st with nextChange := dictSet st.nextChange gpio (now + cooldown) }
    if (st1.disablePinCallback.lookup gpio).getD false = true then
      { state := { st1 with
          disablePinCallback := dictSet st1.disablePinCallback gpio false },
        events := [], error := none }
    else
      match get_topic m hostname gpio with
      | .error e => { state := st1, events := [], error := some e }
      | .ok topic =>
        { state := st1,
          events := [Event.publish topic (levelBool level) true 2],
          error := none }

/-- `on_connect`: logs success (`rc == 0`) or failure and nothing else — in
particular it issues no subscription and touches no state, so it emits no
events in this model. The mapping and hostname are in scope as globals for the
real callback and are taken as (unused) parameters here. -/
def on_connect (_m : List (String × Nat)) (_hostname : String) (_rc : Nat) :
    List Event := []

/-- The subscription loop of `main`: for each configured pin in mapping order,
derive its topic (an exception from `get_topic` aborts the loop), subscribe to
it with `qos=2` and register `pin_callback` for the pin. -/
def subscribeLoop (m : List (String × Nat)) (hostname : String) :
    List Nat → List Event × Option PyError
  | [] => ([], none)
  | pin :: rest =>
    match get_topic m hostname pin with
    | .error e => ([], some e)
    | .ok topic =>
      let r := subscribeLoop m hostname rest
      (Event.subscribe topic 2 :: Event.registerCallback pin :: r.1, r.2)

/-- `main`: connect to the broker first, then run the subscription loop over
the configured pins, then enter `MQTT.loop_forever()` (only reached when no
exception was raised). -/
def main_run (m : List (String × Nat)) (hostname : String) :
    List Event × Option PyError :=
  let r := subscribeLoop m hostname (m.map Prod.snd)
  (Event.mqttConnect :: (r.1 ++ (if r.2.isNone then [Event.loopForever] else [])),
   r.2)

/-! ### Helper lemmas -/

theorem lookup_dictSet_self {α : Type} (l : List (Nat × α)) (k : Nat) (v : α) :
    (dictSet l k v).lookup k = some v := by
  induction l with
  | nil => simp [dictSet, List.lookup]
  | cons hd tl ih =>
    obtain ⟨k', v'⟩ := hd
    by_cases h : k' = k
    · subst h
      simp [dictSet, List.lookup]
    · simp only [dictSet, if_neg h, List.lookup]
      have : (k == k') = false := by
        simp [Nat.beq_eq_true_eq]
        omega
      simp [this, ih]

theorem lookup_dictSet_ne {α : Type} (l : List (Nat × α)) (k k' : Nat) (v : α)
    (h : k' ≠ k) : (dictSet l k v).lookup k' = l.lookup k' := by
  induction l with
  | nil =>
    have : (k' == k) = false := by simp [Nat.beq_eq_true_eq]; omega
    simp [dictSet, List.lookup, this]
  | cons hd tl ih =>
    obtain ⟨ka, va⟩ := hd
    by_cases hk : ka = k
    · subst hk
      have h1 : (k' == ka) = false := by simp [Nat.beq_eq_true_eq]; omega
      simp [dictSet, List.lookup, h1]
    · simp only [dictSet, if_neg hk, List.lookup]
      by_cases h2 : k' = ka
      · subst h2; simp
      · have h3 : (k' == ka) = false := by simp [Nat.beq_eq_true_eq]; omega
        simp [h3, ih]

theorem find?_pin_of_mem (m : List (String × Nat)) (n : String) (p : Nat)
    (hmem : (n, p) ∈ m) (hpins : (m.map Prod.snd).Nodup) :
    m.find? (fun kv => kv.2 == p) = some (n, p) := by
  induction m with
  | nil => simp at hmem
  | cons hd tl ih =>
    obtain ⟨n', p'⟩ := hd
    simp only [List.map_cons, List.nodup_cons] at hpins
    rcases List.mem_cons.mp hmem with heq | htl
    · rw [← heq]
      simp [List.find?]
    · have hp : p ∈ tl.map Prod.snd := List.mem_map_of_mem Prod.snd htl
      have hne : p' ≠ p := fun h => hpins.1 (h ▸ hp)
      have : ((n', p').2 == p) = false := by
        simp [Nat.beq_eq_true_eq]
        omega
      simp only [List.find?, this]
      exact ih htl hpins.2

theorem lookup_of_mem (m : List (String × Nat)) (n : String) (p : Nat)
    (hmem : (n, p) ∈ m) (hnames : (m.map Prod.fst).Nodup) :
    m.lookup n = some p := by
  induction m with
  | nil => simp at hmem
  | cons hd tl ih =>
    obtain ⟨n', p'⟩ := hd
    simp only [List.map_cons, List.nodup_cons] at hnames
    rcases List.mem_cons.mp hmem with heq | htl
    · injection heq.symm with h1 h2
      subst h1
      subst h2
      simp [List.lookup]
    · have hn : n ∈ tl.map Prod.fst := List.mem_map_of_mem Prod.fst htl
      have hne : n ≠ n' := fun h => hnames.1 (h ▸ hn)
      have : (n == n') = false := by
        simp only [beq_eq_false_iff_ne, ne_eq]
        exact hne
      simp only [List.lookup, this]
      exact ih htl hnames.2

theorem kebabScan_chars (l : List Char) (b : Bool) (h : kebabScan l b = true) :
    ∀ c ∈ l, isSegChar c = true ∨ c = '-' := by
  induction l generalizing b with
  | nil => intro c hc; simp at hc
  | cons hd tl ih =>
    intro c hc
    simp only [kebabScan] at h
    rcases List.mem_cons.mp hc with heq | htl
    · subst heq
      by_cases hseg : isSegChar c = true
      · exact Or.inl hseg
      · simp only [hseg, if_false, Bool.false_eq_true] at h
        by_cases hdash : c = '-'
        · exact Or.inr hdash
        · simp [hdash] at h
    · by_cases hseg : isSegChar hd = true
      · simp only [hseg, if_true] at h
        exact ih true h c htl
      · simp only [hseg, Bool.false_eq_true, if_false] at h
        by_cases hdash : hd = '-'
        · simp only [hdash, if_true, Bool.and_eq_true] at h
          exact ih false h.2 c htl
        · simp [hdash] at h

theorem kebab_no_slash (s : String) (h : kebabFullmatch s = true) : '/' ∉ s.data := by
  intro hmem
  have hscan : kebabScan s.data false = true := by
    simp only [kebabFullmatch, Bool.and_eq_true] at h
    exact h.1
  rcases kebabScan_chars s.data false hscan '/' hmem with hseg | hdash
  · simp [isSegChar] at hseg
  · simp at hdash

theorem kebab_ne_empty (s : String) (h : kebabFullmatch s = true) : s ≠ "" := by
  intro heq
  subst heq
  simp [kebabFullmatch] at h

theorem lastSegAux_no_slash (l : List Char) (h : '/' ∉ l) (acc : List Char) :
    lastSegAux l acc = acc ++ l := by
  induction l generalizing acc with
  | nil => simp [lastSegAux]
  | cons hd tl ih =>
    have hne : hd ≠ '/' := fun he => h (he ▸ List.mem_cons_self hd tl)
    have htl : '/' ∉ tl := fun hm => h (List.mem_cons_of_mem hd hm)
    simp only [lastSegAux, if_neg (fun he : hd = '/' => hne he)]
    rw [ih htl]
    simp

theorem lastSegAux_append_slash (l₁ l₂ : List Char) (acc : List Char) :
    lastSegAux (l₁ ++ '/' :: l₂) acc = lastSegAux l₂ [] := by
  induction l₁ generalizing acc with
  | nil => simp [lastSegAux]
  | cons hd tl ih =>
    by_cases h : hd = '/'
    · simp only [List.cons_append, lastSegAux, if_pos h]
      exact ih []
    · simp only [List.cons_append, lastSegAux, if_neg h]
      exact ih (acc ++ [hd])

theorem string_data_append (s t : String) : (s ++ t).data = s.data ++ t.data := rfl

theorem lastSeg_mkTopic (hostname suffix : String) (h : '/' ∉ suffix.data) :
    lastSeg (mkTopic hostname suffix) = suffix := by
  have hdata : (mkTopic hostname suffix).data =
      (("/homeassistant/" ++ hostname).data ++ ['/', 'g', 'p', 'i', 'o']) ++
        '/' :: suffix.data := by
    simp [mkTopic, string_data_append]
  simp only [lastSeg, hdata, lastSegAux_append_slash, lastSegAux_no_slash _ h,
    List.nil_append]

theorem get_topic_of_mem (m : List (String × Nat)) (hostname : String)
    (n : String) (p : Nat) (hmem : (n, p) ∈ m) (hpins : (m.map Prod.snd).Nodup)
    (hkeb : kebabFullmatch n = true) :
    get_topic m hostname p = .ok (mkTopic hostname n) := by
  simp [get_topic, find?_pin_of_mem m n p hmem hpins, kebab_ne_empty n hkeb, hkeb]

theorem get_pin_mkTopic (m : List (String × Nat)) (hostname : String)
    (n : String) (p : Nat) (hmem : (n, p) ∈ m) (hnames : (m.map Prod.fst).Nodup)
    (hkeb : kebabFullmatch n = true) :
    get_pin m (mkTopic hostname n) = .ok p := by
  simp [get_pin, lastSeg_mkTopic hostname n (kebab_no_slash n hkeb),
    lookup_of_mem m n p hmem hnames]

theorem on_message_accept_nowait (m : List (String × Nat)) (read : Nat → Bool)
    (st : BridgeState) (topic payload : String) (now : Int) (gpio : Nat)
    (hacc : pyMem (.str payload) (ON_VALUES ++ OFF_VALUES) = true)
    (hpin : get_pin m topic = .ok gpio)
    (hmism : read gpio ≠ target_state payload)
    (hcool : (st.nextChange.lookup gpio).getD 0 ≤ now) :
    on_message m read st topic payload now =
      { state := { st with
          disablePinCallback := dictSet st.disablePinCallback gpio true },
        events := [Event.armSuppression gpio,
                   Event.pinWrite gpio (target_state payload) now],
        error := none } := by
  have hw : ¬ (0 < (st.nextChange.lookup gpio).getD 0 - now) := by omega
  unfold on_message
  rw [hacc, hpin]
  simp [hmism, hw]

theorem on_message_accept_wait (m : List (String × Nat)) (read : Nat → Bool)
    (st : BridgeState) (topic payload : String) (now : Int) (gpio : Nat) (d : Int)
    (hacc : pyMem (.str payload) (ON_VALUES ++ OFF_VALUES) = true)
    (hpin : get_pin m topic = .ok gpio)
    (hmism : read gpio ≠ target_state payload)
    (hd : st.nextChange.lookup gpio = some d) (hlt : now < d) :
    on_message m read st topic payload now =
      { state := { st with
          disablePinCallback := dictSet st.disablePinCallback gpio true },
        events := [Event.sleep (d - now), Event.armSuppression gpio,
                   Event.pinWrite gpio (target_state payload) d],
        error := none } := by
  have hw : 0 < (st.nextChange.lookup gpio).getD 0 - now := by
    rw [hd]; simp; omega
  unfold on_message
  rw [hacc, hpin]
  simp [hmism, hw, hd, hlt]

theorem on_message_nextChange (m : List (String × Nat)) (read : Nat → Bool)
    (st : BridgeState) (topic payload : String) (now : Int) :
    (on_message m read st topic payload now).state.nextChange = st.nextChange := by
  unfold on_message
  by_cases h1 : pyMem (.str payload) (ON_VALUES ++ OFF_VALUES) = false
  · simp [h1]
  · rcases hgp : get_pin m topic with e | gpio
    · simp [h1]
    · by_cases h3 : read gpio = target_state payload <;> simp [h1, h3]

theorem pin_callback_suppressed (m : List (String × Nat)) (hostname : String)
    (cooldown : Int) (st : BridgeState) (gpio : Nat) (lvl : NewPinState) (now : Int)
    (hl : lvl ≠ NewPinState.WATCHDOG_TIMEOUT_NO_CHANGE)
    (hflag : (st.disablePinCallback.lookup gpio).getD false = true) :
    pin_callback m hostname cooldown st gpio lvl now =
      { state := { nextChange := dictSet st.nextChange gpio (now + cooldown),
                   disablePinCallback := dictSet st.disablePinCallback gpio false },
        events := [], error := none } := by
  unfold pin_callback
  rw [if_neg hl]
  simp [hflag]

theorem pin_callback_publish (m : List (String × Nat)) (hostname : String)
    (cooldown : Int) (st : BridgeState) (gpio : Nat) (lvl : NewPinState) (now : Int)
    (t : String)
    (hl : lvl ≠ NewPinState.WATCHDOG_TIMEOUT_NO_CHANGE)
    (hflag : (st.disablePinCallback.lookup gpio).getD false = false)
    (htopic : get_topic m hostname gpio = .ok t) :
    pin_callback m hostname cooldown st gpio lvl now =
      { state := { st with nextChange := dictSet st.nextChange gpio (now + cooldown) },
        events := [Event.publish t (levelBool lvl) true 2],
        error := none } := by
  unfold pin_callback
  rw [if_neg hl, htopic]
  simp [hflag]

theorem pin_callback_nextChange (m : List (String × Nat)) (hostname : String)
    (cooldown : Int) (st : BridgeState) (gpio : Nat) (lvl : NewPinState) (now : Int)
    (hl : lvl ≠ NewPinState.WATCHDOG_TIMEOUT_NO_CHANGE) :
    (pin_callback m hostname cooldown st gpio lvl now).state.nextChange =
      dictSet st.nextChange gpio (now + cooldown) := by
  unfold pin_callback
  rw [if_neg hl]
  by_cases hflag : (st.disablePinCallback.lookup gpio).getD false = true
  · simp [hflag]
  · rcases hgt : get_topic m hostname gpio with e | t <;> simp [hflag, hgt]

/-! ### Claim C4 -/

/-- Claim C4: for every ledger state and every pin, an edge callback invoked
with the watchdog timeout-no-change level returns without publishing any MQTT
message and without modifying any pin's cooldown deadline or suppression flag. -/
theorem C4_watchdog_no_effect (m : List (String × Nat)) (hostname : String)
    (cooldown : Int) (st : BridgeState) (gpio : Nat) (now : Int) :
    pin_callback m hostname cooldown st gpio
        NewPinState.WATCHDOG_TIMEOUT_NO_CHANGE now =
      { state := st, events := [], error := none } := by
  simp [pin_callback]

/-! ### Claim C5 -/

/-- Claim C5: round-trip of the pin registry — for every entry of the
configured mapping (names and pin numbers each unique, names valid
kebab-case), `get_pin (get_topic pin) = pin` and `get_topic (get_pin topic) =
topic` for the entry's topic. -/
theorem C5_registry_round_trip (m : List (String × Nat)) (hostname : String)
    (n : String) (p : Nat) (hmem : (n, p) ∈ m)
    (hnames : (m.map Prod.fst).Nodup) (hpins : (m.map Prod.snd).Nodup)
    (hkeb : kebabFullmatch n = true) :
    get_topic m hostname p = .ok (mkTopic hostname n) ∧
    get_pin m (mkTopic hostname n) = .ok p ∧
    (get_topic m hostname p).bind (get_pin m) = .ok p ∧
    (get_pin m (mkTopic hostname n)).bind (get_topic m hostname) =
      .ok (mkTopic hostname n) := by
  have h1 := get_topic_of_mem m hostname n p hmem hpins hkeb
  have h2 := get_pin_mkTopic m hostname n p hmem hnames hkeb
  refine ⟨h1, h2, ?_, ?_⟩
  · rw [h1]
    simpa [Except.bind] using h2
  · rw [h2]
    simpa [Except.bind] using h1

/-- Witness for C5 at the mapping `{"cpu-fan": 17}` from the module docstring. -/
theorem C5_registry_round_trip_witness :
    (("cpu-fan", 17) ∈ [("cpu-fan", 17)] ∧ kebabFullmatch "cpu-fan" = true) ∧
    (get_topic [("cpu-fan", 17)] "octopi" 17 = .ok (mkTopic "octopi" "cpu-fan") ∧
     get_pin [("cpu-fan", 17)] (mkTopic "octopi" "cpu-fan") = .ok 17 ∧
     (get_topic [("cpu-fan", 17)] "octopi" 17).bind (get_pin [("cpu-fan", 17)]) =
       .ok 17 ∧
     (get_pin [("cpu-fan", 17)] (mkTopic "octopi" "cpu-fan")).bind
         (get_topic [("cpu-fan", 17)] "octopi") =
       .ok (mkTopic "octopi" "cpu-fan")) :=
  ⟨⟨by decide, by decide⟩,
   C5_registry_round_trip [("cpu-fan", 17)] "octopi" "cpu-fan" 17
     (by decide) (by decide) (by decide) (by decide)⟩

/-! ### Claim C10 -/

/-- Claim C10: topic-to-pin resolution uses only the final `'/'`-separated
segment of the topic string, so any two topics with the same final segment
resolve to the same pin, and `on_message` treats them identically. -/
theorem C10_last_segment_resolution (m : List (String × Nat)) (t1 t2 : String)
    (h : lastSeg t1 = lastSeg t2) :
    get_pin m t1 = get_pin m t2 ∧
    ∀ (read : Nat → Bool) (st : BridgeState) (payload : String) (now : Int),
      on_message m read st t1 payload now = on_message m read st t2 payload now := by
  have hp : get_pin m t1 = get_pin m t2 := by
    unfold get_pin
    rw [h]
  exact ⟨hp, fun read st payload now => by unfold on_message; rw [hp]⟩

/-- Witness for C10: a topic with a foreign root but the configured final
segment resolves (and is acted on) exactly like the bridge's own topic. -/
theorem C10_last_segment_resolution_witness :
    lastSeg "/homeassistant/octopi/gpio/cpu-fan" = lastSeg "/other/root/cpu-fan" ∧
    get_pin [("cpu-fan", 17)] "/homeassistant/octopi/gpio/cpu-fan" =
      get_pin [("cpu-fan", 17)] "/other/root/cpu-fan" ∧
    get_pin [("cpu-fan", 17)] "/other/root/cpu-fan" = .ok 17 :=
  ⟨by decide,
   (C10_last_segment_resolution [("cpu-fan", 17)]
      "/homeassistant/octopi/gpio/cpu-fan" "/other/root/cpu-fan" (by decide)).1,
   by decide⟩

/-! ### Claim C1 -/

/-- Claim C1: echo suppression handshake — an accepted inbound command arms the
suppression flag before writing the pin (the `armSuppression` event precedes the
`pinWrite` event); the first subsequent edge notification for that pin consumes
the flag and publishes nothing; a second edge notification arriving after the
flag has been consumed and not re-armed publishes the new level to the pin's
topic. -/
theorem C1_echo_suppression_handshake (m : List (String × Nat)) (read : Nat → Bool)
    (hostname : String) (cooldown : Int) (st0 : BridgeState)
    (topic payload t : String) (gpio : Nat) (now1 now2 now3 : Int)
    (lvl1 lvl2 : NewPinState)
    (hacc : pyMem (.str payload) (ON_VALUES ++ OFF_VALUES) = true)
    (hpin : get_pin m topic = .ok gpio)
    (hmism : read gpio ≠ target_state payload)
    (hcool : (st0.nextChange.lookup gpio).getD 0 ≤ now1)
    (hl1 : lvl1 ≠ NewPinState.WATCHDOG_TIMEOUT_NO_CHANGE)
    (hl2 : lvl2 ≠ NewPinState.WATCHDOG_TIMEOUT_NO_CHANGE)
    (htopic : get_topic m hostname gpio = .ok t) :
    (on_message m read st0 topic payload now1).events =
      [Event.armSuppression gpio, Event.pinWrite gpio (target_state payload) now1] ∧
    (on_message m read st0 topic payload now1).state.disablePinCallback.lookup gpio =
      some true ∧
    (pin_callback m hostname cooldown
        (on_message m read st0 topic payload now1).state gpio lvl1 now2).events =
      [] ∧
    (pin_callback m hostname cooldown
        (on_message m read st0 topic payload now1).state gpio lvl1
        now2).state.disablePinCallback.lookup gpio = some false ∧
    (pin_callback m hostname cooldown
        (pin_callback m hostname cooldown
          (on_message m read st0 topic payload now1).state gpio lvl1 now2).state
        gpio lvl2 now3).events =
      [Event.publish t (levelBool lvl2) true 2] := by
  have h1 := on_message_accept_nowait m read st0 topic payload now1 gpio hacc hpin
    hmism hcool
  have h2 := pin_callback_suppressed m hostname cooldown
    { st0 with disablePinCallback := dictSet st0.disablePinCallback gpio true }
    gpio lvl1 now2 hl1 (by simp [lookup_dictSet_self])
  have h3 := pin_callback_publish m hostname cooldown
    { nextChange := dictSet st0.nextChange gpio (now2 + cooldown),
      disablePinCallback := dictSet (dictSet st0.disablePinCallback gpio true)
        gpio false }
    gpio lvl2 now3 t hl2 (by simp [lookup_dictSet_self]) htopic
  refine ⟨?_, ?_, ?_, ?_, ?_⟩
  · rw [h1]
  · rw [h1]
    simp [lookup_dictSet_self]
  · rw [h1]
    simp only [h2]
  · rw [h1]
    simp only [h2]
    simp [lookup_dictSet_self]
  · rw [h1]
    simp only [h2]
    simp only [h3]

/-- Witness for C1: mapping `{"cpu-fan": 17}`, an accepted `"on"` command at
time 100, a first (suppressed) edge at 101, a second (published) edge at 107. -/
theorem C1_echo_suppression_handshake_witness :
    (on_message [("cpu-fan", 17)] (fun _ => false)
        { nextChange := [], disablePinCallback := [] }
        "/homeassistant/octopi/gpio/cpu-fan" "on" 100).events =
      [Event.armSuppression 17, Event.pinWrite 17 (target_state "on") 100] ∧
    (on_message [("cpu-fan", 17)] (fun _ => false)
        { nextChange := [], disablePinCallback := [] }
        "/homeassistant/octopi/gpio/cpu-fan" "on"
        100).state.disablePinCallback.lookup 17 = some true ∧
    (pin_callback [("cpu-fan", 17)] "octopi" 5
        (on_message [("cpu-fan", 17)] (fun _ => false)
          { nextChange := [], disablePinCallback := [] }
          "/homeassistant/octopi/gpio/cpu-fan" "on" 100).state
        17 NewPinState.ON 101).events = [] ∧
    (pin_callback [("cpu-fan", 17)] "octopi" 5
        (on_message [("cpu-fan", 17)] (fun _ => false)
          { nextChange := [], disablePinCallback := [] }
          "/homeassistant/octopi/gpio/cpu-fan" "on" 100).state
        17 NewPinState.ON 101).state.disablePinCallback.lookup 17 = some false ∧
    (pin_callback [("cpu-fan", 17)] "octopi" 5
        (pin_callback [("cpu-fan", 17)] "octopi" 5
          (on_message [("cpu-fan", 17)] (fun _ => false)
            { nextChange := [], disablePinCallback := [] }
            "/homeassistant/octopi/gpio/cpu-fan" "on" 100).state
          17 NewPinState.ON 101).state
        17 NewPinState.OFF 107).events =
      [Event.publish "/homeassistant/octopi/gpio/cpu-fan"
        (levelBool NewPinState.OFF) true 2] :=
  C1_echo_suppression_handshake [("cpu-fan", 17)] (fun _ => false) "octopi" 5
    { nextChange := [], disablePinCallback := [] }
    "/homeassistant/octopi/gpio/cpu-fan" "on" "/homeassistant/octopi/gpio/cpu-fan"
    17 100 101 107 NewPinState.ON NewPinState.OFF
    (by decide) (by decide) (by decide) (by decide) (by decide) (by decide)
    (by decide)

/-! ### Claim C2 -/

/-- Claim C2 counterexample: a suppressed echo does alter the pin's cooldown
deadline (`pin_callback` sets `NEXT_CHANGE[gpio] = now + COOLDOWN` before it
checks the suppression flag), and the inbound handler sets no deadline at all
(`on_message` leaves `NEXT_CHANGE` untouched after an accepted write). At
cooldown 5, deadline 100 and a suppressed edge at time 40, the deadline becomes
45, not 100; and an accepted `"on"` command at time 50 leaves `NEXT_CHANGE`
empty instead of recording `50 + 5`. -/
theorem C2_cex :
    (pin_callback [("cpu-fan", 17)] "octopi" 5
        { nextChange := [(17, 100)], disablePinCallback := [(17, true)] }
        17 NewPinState.ON 40).events = [] ∧
    (pin_callback [("cpu-fan", 17)] "octopi" 5
        { nextChange := [(17, 100)], disablePinCallback := [(17, true)] }
        17 NewPinState.ON 40).state.nextChange = [(17, 45)] ∧
    ([(17, 45)] : List (Nat × Int)) ≠ [(17, 100)] ∧
    (on_message [("cpu-fan", 17)] (fun _ => false)
        { nextChange := [], disablePinCallback := [] }
        "/homeassistant/octopi/gpio/cpu-fan" "on" 50).events ≠ [] ∧
    (on_message [("cpu-fan", 17)] (fun _ => false)
        { nextChange := [], disablePinCallback := [] }
        "/homeassistant/octopi/gpio/cpu-fan" "on" 50).state.nextChange = [] := by
  decide

/-- Claim C2 (amended): an edge notification that finds the suppression flag
set is discarded without publishing, but it first updates that pin's cooldown
deadline to `now + cooldown` (the deadline write precedes the suppression
check); the inbound handler records no deadline — `on_message` never modifies
`NEXT_CHANGE`. -/
theorem C2_suppressed_edge_updates_deadline (m : List (String × Nat))
    (hostname : String) (cooldown : Int) (st : BridgeState) (gpio : Nat)
    (lvl : NewPinState) (now : Int) (read : Nat → Bool) (topic payload : String)
    (now' : Int)
    (hl : lvl ≠ NewPinState.WATCHDOG_TIMEOUT_NO_CHANGE)
    (hflag : (st.disablePinCallback.lookup gpio).getD false = true) :
    pin_callback m hostname cooldown st gpio lvl now =
      { state := { nextChange := dictSet st.nextChange gpio (now + cooldown),
                   disablePinCallback := dictSet st.disablePinCallback gpio false },
        events := [], error := none } ∧
    (on_message m read st topic payload now').state.nextChange = st.nextChange :=
  ⟨pin_callback_suppressed m hostname cooldown st gpio lvl now hl hflag,
   on_message_nextChange m read st topic payload now'⟩

/-- Witness for the amended C2 at a concrete suppressed edge. -/
theorem C2_suppressed_edge_updates_deadline_witness :
    pin_callback [("cpu-fan", 17)] "octopi" 5
        { nextChange := [(17, 100)], disablePinCallback := [(17, true)] }
        17 NewPinState.ON 40 =
      { state := { nextChange := dictSet [(17, 100)] 17 (40 + 5),
                   disablePinCallback := dictSet [(17, true)] 17 false },
        events := [], error := none } ∧
    (on_message [("cpu-fan", 17)] (fun _ => false)
        { nextChange := [(17, 100)], disablePinCallback := [(17, true)] }
        "/homeassistant/octopi/gpio/cpu-fan" "on" 50).state.nextChange =
      [(17, 100)] :=
  C2_suppressed_edge_updates_deadline [("cpu-fan", 17)] "octopi" 5
    { nextChange := [(17, 100)], disablePinCallback := [(17, true)] }
    17 NewPinState.ON 40 (fun _ => false)
    "/homeassistant/octopi/gpio/cpu-fan" "on" 50 (by decide) (by decide)

/-! ### Claim C3 -/

/-- Claim C3: when a second accepted inbound command for the same pin arrives
`elapsed` seconds after the previous change (whose edge callback recorded the
deadline `tprev + cooldown`), with `elapsed < cooldown`, the handler sleeps
`cooldown - elapsed` and stamps the write at exactly the recorded
next-allowed-change time — never earlier. -/
theorem C3_cooldown_delay (m : List (String × Nat)) (hostname : String)
    (cooldown : Int) (read : Nat → Bool) (st0 : BridgeState)
    (topic payload : String) (gpio : Nat) (lvl : NewPinState)
    (tprev elapsed : Int)
    (hl : lvl ≠ NewPinState.WATCHDOG_TIMEOUT_NO_CHANGE)
    (hacc : pyMem (.str payload) (ON_VALUES ++ OFF_VALUES) = true)
    (hpin : get_pin m topic = .ok gpio)
    (hmism : read gpio ≠ target_state payload)
    (_h0 : 0 ≤ elapsed) (hlt : elapsed < cooldown) :
    (pin_callback m hostname cooldown st0 gpio lvl
        tprev).state.nextChange.lookup gpio = some (tprev + cooldown) ∧
    (on_message m read (pin_callback m hostname cooldown st0 gpio lvl tprev).state
        topic payload (tprev + elapsed)).events =
      [Event.sleep (cooldown - elapsed), Event.armSuppression gpio,
       Event.pinWrite gpio (target_state payload) (tprev + cooldown)] ∧
    tprev + elapsed + (cooldown - elapsed) ≤ tprev + cooldown := by
  have hnext := pin_callback_nextChange m hostname cooldown st0 gpio lvl tprev hl
  have hlook : (pin_callback m hostname cooldown st0 gpio lvl
      tprev).state.nextChange.lookup gpio = some (tprev + cooldown) := by
    rw [hnext]
    exact lookup_dictSet_self _ _ _
  have hm := on_message_accept_wait m read
    (pin_callback m hostname cooldown st0 gpio lvl tprev).state topic payload
    (tprev + elapsed) gpio (tprev + cooldown) hacc hpin hmism hlook (by omega)
  refine ⟨hlook, ?_, by omega⟩
  rw [hm]
  have e1 : tprev + cooldown - (tprev + elapsed) = cooldown - elapsed := by omega
  rw [e1]

/-- Witness for C3: previous change at time 100 (cooldown 5), second `"off"`
command at 102 — a 3-second sleep and a write stamped at 105. -/
theorem C3_cooldown_delay_witness :
    (pin_callback [("cpu-fan", 17)] "octopi" 5
        { nextChange := [], disablePinCallback := [] }
        17 NewPinState.ON 100).state.nextChange.lookup 17 = some (100 + 5) ∧
    (on_message [("cpu-fan", 17)] (fun _ => true)
        (pin_callback [("cpu-fan", 17)] "octopi" 5
          { nextChange := [], disablePinCallback := [] }
          17 NewPinState.ON 100).state
        "/homeassistant/octopi/gpio/cpu-fan" "off" (100 + 2)).events =
      [Event.sleep (5 - 2), Event.armSuppression 17,
       Event.pinWrite 17 (target_state "off") (100 + 5)] ∧
    (100 : Int) + 2 + (5 - 2) ≤ 100 + 5 :=
  C3_cooldown_delay [("cpu-fan", 17)] "octopi" 5 (fun _ => true)
    { nextChange := [], disablePinCallback := [] }
    "/homeassistant/octopi/gpio/cpu-fan" "off" 17 NewPinState.ON 100 2
    (by decide) (by decide) (by decide) (by decide) (by decide) (by decide)

/-! ### Claim C6 -/

/-- Claim C6 counterexample: an unrecognized payload makes `on_message` raise a
`ValueError`, and an accepted payload on an unmapped topic makes the mapping
lookup raise a `KeyError`; both exceptions propagate out of the handler instead
of being logged and swallowed there. -/
theorem C6_cex :
    (on_message [("cpu-fan", 17)] (fun _ => false)
        { nextChange := [], disablePinCallback := [] }
        "/homeassistant/octopi/gpio/cpu-fan" "banana" 0).error =
      some PyError.valueError ∧
    (on_message [("cpu-fan", 17)] (fun _ => false)
        { nextChange := [], disablePinCallback := [] }
        "/homeassistant/octopi/gpio/unknown-name" "on" 0).error =
      some PyError.keyError := by
  decide

/-- Claim C6 (amended): an unrecognized payload makes `on_message` raise
`ValueError`, and an accepted payload whose topic does not resolve makes it
raise `KeyError`; in both cases the message is dropped with no pin write and no
ledger change, but the exception propagates out of the handler (there is no
try/except in `on_message`). -/
theorem C6_invalid_input_raises (m : List (String × Nat)) (read : Nat → Bool)
    (st : BridgeState) (topic payload : String) (now : Int) :
    (pyMem (.str payload) (ON_VALUES ++ OFF_VALUES) = false →
      on_message m read st topic payload now =
        { state := st, events := [], error := some PyError.valueError }) ∧
    (pyMem (.str payload) (ON_VALUES ++ OFF_VALUES) = true →
      get_pin m topic = .error PyError.keyError →
      on_message m read st topic payload now =
        { state := st, events := [], error := some PyError.keyError }) := by
  constructor
  · intro h
    unfold on_message
    rw [h]
    simp
  · intro h1 h2
    unfold on_message
    rw [h1, h2]
    simp

/-- Witness for the amended C6 at the two concrete failing messages. -/
theorem C6_invalid_input_raises_witness :
    on_message [("cpu-fan", 17)] (fun _ => false)
        { nextChange := [], disablePinCallback := [] }
        "/homeassistant/octopi/gpio/cpu-fan" "banana" 0 =
      { state := { nextChange := [], disablePinCallback := [] },
        events := [], error := some PyError.valueError } ∧
    on_message [("cpu-fan", 17)] (fun _ => false)
        { nextChange := [], disablePinCallback := [] }
        "/homeassistant/octopi/gpio/unknown-name" "on" 0 =
      { state := { nextChange := [], disablePinCallback := [] },
        events := [], error := some PyError.keyError } :=
  ⟨(C6_invalid_input_raises [("cpu-fan", 17)] (fun _ => false)
      { nextChange := [], disablePinCallback := [] }
      "/homeassistant/octopi/gpio/cpu-fan" "banana" 0).1 (by decide),
   (C6_invalid_input_raises [("cpu-fan", 17)] (fun _ => false)
      { nextChange := [], disablePinCallback := [] }
      "/homeassistant/octopi/gpio/unknown-name" "on" 0).2 (by decide) (by decide)⟩

/-! ### Startup-loop lemmas for C7 and C8 -/

theorem get_topic_ok_shape (m : List (String × Nat)) (hostname : String)
    (p : Nat) (t : String) (hok : get_topic m hostname p = .ok t) :
    ∃ nm, kebabFullmatch nm = true ∧ t = mkTopic hostname nm := by
  unfold get_topic at hok
  cases hf : m.find? (fun kv => kv.2 == p) with
  | none =>
    rw [hf] at hok
    simp at hok
  | some kv =>
    rw [hf] at hok
    by_cases h1 : kv.1 = ""
    · simp [h1] at hok
    · by_cases h2 : kebabFullmatch kv.1
      · simp [h1, h2] at hok
        exact ⟨kv.1, h2, hok.symm⟩
      · simp [h1, h2] at hok

theorem get_topic_ok_of_pin_mem (m : List (String × Nat)) (hostname : String)
    (hkeb : ∀ e ∈ m, kebabFullmatch e.1 = true) (q : Nat)
    (hq : q ∈ m.map Prod.snd) : ∃ t, get_topic m hostname q = .ok t := by
  cases hf : m.find? (fun kv => kv.2 == q) with
  | none =>
    exfalso
    obtain ⟨kv, hkv, hsnd⟩ := List.mem_map.mp hq
    have := List.find?_eq_none.mp hf kv hkv
    simp [hsnd] at this
  | some kv =>
    have hkv : kv ∈ m := List.mem_of_find?_eq_some hf
    have hk := hkeb kv hkv
    refine ⟨mkTopic hostname kv.1, ?_⟩
    unfold get_topic
    rw [hf]
    simp [kebab_ne_empty kv.1 hk, hk]

theorem subscribeLoop_error_of_mem (m : List (String × Nat)) (hostname : String)
    (l : List Nat) (p : Nat) (hp : p ∈ l)
    (herr : get_topic m hostname p = .error PyError.valueError) :
    (subscribeLoop m hostname l).2.isSome := by
  induction l with
  | nil => simp at hp
  | cons q rest ih =>
    rcases List.mem_cons.mp hp with rfl | hrest
    · simp [subscribeLoop, herr]
    · cases hgt : get_topic m hostname q with
      | error e => simp [subscribeLoop, hgt]
      | ok t =>
        simp only [subscribeLoop, hgt]
        exact ih hrest

theorem subscribeLoop_subscribe_mem (m : List (String × Nat)) (hostname : String)
    (l : List Nat) (p : Nat) (t : String)
    (hall : ∀ q ∈ l, ∃ u, get_topic m hostname q = .ok u)
    (hp : p ∈ l) (hok : get_topic m hostname p = .ok t) :
    Event.subscribe t 2 ∈ (subscribeLoop m hostname l).1 := by
  induction l with
  | nil => simp at hp
  | cons q rest ih =>
    obtain ⟨u, hu⟩ := hall q (List.mem_cons_self q rest)
    simp only [subscribeLoop, hu]
    rcases List.mem_cons.mp hp with rfl | hrest
    · rw [hok] at hu
      injection hu with hu
      rw [hu]
      exact List.mem_cons_self _ _
    · have := ih (fun r hr => hall r (List.mem_cons_of_mem q hr)) hrest
      exact List.mem_cons_of_mem _ (List.mem_cons_of_mem _ this)

theorem subscribeLoop_subscribe_src (m : List (String × Nat)) (hostname : String)
    (l : List Nat) (t : String) (q : Nat)
    (hmem : Event.subscribe t q ∈ (subscribeLoop m hostname l).1) :
    ∃ p ∈ l, get_topic m hostname p = .ok t ∧ q = 2 := by
  induction l with
  | nil => simp [subscribeLoop] at hmem
  | cons pin rest ih =>
    cases hgt : get_topic m hostname pin with
    | error e =>
      rw [subscribeLoop, hgt] at hmem
      simp at hmem
    | ok tp =>
      rw [subscribeLoop, hgt] at hmem
      rcases List.mem_cons.mp hmem with heq | hmem2
      · injection heq with h1 h2
        exact ⟨pin, List.mem_cons_self pin rest, by rw [hgt, h1], h2⟩
      · rcases List.mem_cons.mp hmem2 with heq2 | hmem3
        · exact absurd heq2 (by simp)
        · obtain ⟨p, hpl, hpt, hq⟩ := ih hmem3
          exact ⟨p, List.mem_cons_of_mem pin hpl, hpt, hq⟩

theorem subscribeLoop_no_loopForever (m : List (String × Nat)) (hostname : String)
    (l : List Nat) : Event.loopForever ∉ (subscribeLoop m hostname l).1 := by
  induction l with
  | nil => simp [subscribeLoop]
  | cons pin rest ih =>
    cases hgt : get_topic m hostname pin with
    | error e => simp [subscribeLoop, hgt]
    | ok tp =>
      simp only [subscribeLoop, hgt]
      intro hmem
      rcases List.mem_cons.mp hmem with heq | hmem2
      · exact absurd heq (by simp)
      · rcases List.mem_cons.mp hmem2 with heq2 | hmem3
        · exact absurd heq2 (by simp)
        · exact ih hmem3

theorem mkTopic_inj_suffix (hostname a b : String)
    (he : mkTopic hostname a = mkTopic hostname b) : a = b := by
  have hd : (mkTopic hostname a).data = (mkTopic hostname b).data := by rw [he]
  simp only [mkTopic, string_data_append, List.append_assoc] at hd
  have h1 := List.append_cancel_left hd
  have h2 := List.append_cancel_left h1
  have h3 := List.append_cancel_left h2
  cases a
  cases b
  exact congrArg String.mk (by simpa using h3)

/-! ### Claim C7 -/

/-- Claim C7 counterexample: with the malformed name `"CPU_Fan"` in the
mapping, `main` still attempts the MQTT connection first — and even subscribes
the well-formed entry that precedes the malformed one — before the
configuration failure is raised, contradicting "before any MQTT connection
attempt is made and before any subscription occurs". -/
theorem C7_cex :
    (main_run [("cpu-fan", 1), ("CPU_Fan", 17)] "octopi").2 =
      some PyError.valueError ∧
    (main_run [("cpu-fan", 1), ("CPU_Fan", 17)] "octopi").1 =
      [Event.mqttConnect,
       Event.subscribe "/homeassistant/octopi/gpio/cpu-fan" 2,
       Event.registerCallback 1] := by
  decide

/-- Claim C7 (amended): if the configured mapping contains a logical name that
does not match the strict kebab-case pattern, startup fails with a
`ValueError` raised while deriving that entry's topic: the message loop is
never entered and the malformed entry is never subscribed — but the failure
occurs after the MQTT connect call (and after subscribing any entries
processed before the malformed one), not before the connection attempt. -/
theorem C7_malformed_name_fails_after_connect (m : List (String × Nat))
    (hostname : String) (n : String) (p : Nat)
    (hmem : (n, p) ∈ m) (hpins : (m.map Prod.snd).Nodup)
    (hbad : kebabFullmatch n = false) :
    (main_run m hostname).2.isSome ∧
    (main_run m hostname).1.head? = some Event.mqttConnect ∧
    Event.loopForever ∉ (main_run m hostname).1 ∧
    ∀ q, Event.subscribe (mkTopic hostname n) q ∉ (main_run m hostname).1 := by
  have herr : get_topic m hostname p = .error PyError.valueError := by
    unfold get_topic
    rw [find?_pin_of_mem m n p hmem hpins]
    by_cases h1 : n = ""
    · simp [h1]
    · simp [h1, hbad]
  have hp : p ∈ m.map Prod.snd := List.mem_map_of_mem Prod.snd hmem
  have hsome : (subscribeLoop m hostname (m.map Prod.snd)).2.isSome :=
    subscribeLoop_error_of_mem m hostname (m.map Prod.snd) p hp herr
  have hnone : (subscribeLoop m hostname (m.map Prod.snd)).2.isNone = false := by
    cases h2 : (subscribeLoop m hostname (m.map Prod.snd)).2 with
    | none => rw [h2] at hsome; simp at hsome
    | some e => simp
  refine ⟨?_, ?_, ?_, ?_⟩
  · simpa [main_run] using hsome
  · simp [main_run]
  · simp only [main_run, hnone, if_neg, Bool.false_eq_true, if_false,
      List.append_nil]
    intro hc
    rcases List.mem_cons.mp hc with heq | hmem2
    · exact absurd heq (by simp)
    · exact subscribeLoop_no_loopForever m hostname (m.map Prod.snd) hmem2
  · intro q
    simp only [main_run, hnone, Bool.false_eq_true, if_false, List.append_nil]
    intro hc
    rcases List.mem_cons.mp hc with heq | hmem2
    · exact absurd heq (by simp)
    · obtain ⟨p', _, hok, _⟩ :=
        subscribeLoop_subscribe_src m hostname (m.map Prod.snd) _ q hmem2
      obtain ⟨nm, hknm, htnm⟩ := get_topic_ok_shape m hostname p' _ hok
      have : nm = n := mkTopic_inj_suffix hostname nm n htnm.symm
      rw [this] at hknm
      rw [hknm] at hbad
      exact absurd hbad (by simp)

/-- Witness for the amended C7 at the single-entry mapping `{"CPU_Fan": 17}`. -/
theorem C7_malformed_name_fails_after_connect_witness :
    (main_run [("CPU_Fan", 17)] "octopi").2.isSome ∧
    (main_run [("CPU_Fan", 17)] "octopi").1.head? = some Event.mqttConnect ∧
    Event.loopForever ∉ (main_run [("CPU_Fan", 17)] "octopi").1 ∧
    ∀ q, Event.subscribe (mkTopic "octopi" "CPU_Fan") q ∉
      (main_run [("CPU_Fan", 17)] "octopi").1 :=
  C7_malformed_name_fails_after_connect [("CPU_Fan", 17)] "octopi" "CPU_Fan" 17
    (by decide) (by decide) (by decide)

/-! ### Claim C8 -/

/-- Claim C8 counterexample: entering the `Connected` state (reason code 0)
with a configured topic available produces no subscription at all — the
connect callback only logs, so reconnects never re-subscribe. -/
theorem C8_cex :
    on_connect [("cpu-fan", 17)] "octopi" 0 = [] ∧
    get_topic [("cpu-fan", 17)] "octopi" 17 =
      .ok "/homeassistant/octopi/gpio/cpu-fan" := by
  decide

/-- Claim C8 (amended): subscriptions are issued once, by `main` at startup —
one `subscribe(topic, qos=2)` per configured pin (QoS 2 meets
at-least-once-or-higher) — while the connect callback performs no subscription,
so entering `Connected` again after a reconnect does not re-subscribe. -/
theorem C8_subscribe_only_at_startup (m : List (String × Nat)) (hostname : String)
    (rc : Nat) (n : String) (p : Nat)
    (hmem : (n, p) ∈ m) (hpins : (m.map Prod.snd).Nodup)
    (hkeb : ∀ e ∈ m, kebabFullmatch e.1 = true) :
    on_connect m hostname rc = [] ∧
    Event.subscribe (mkTopic hostname n) 2 ∈ (main_run m hostname).1 ∧
    (1 : Nat) ≤ 2 := by
  refine ⟨rfl, ?_, by omega⟩
  have hok : get_topic m hostname p = .ok (mkTopic hostname n) :=
    get_topic_of_mem m hostname n p hmem hpins (hkeb (n, p) hmem)
  have hall := get_topic_ok_of_pin_mem m hostname hkeb
  have hp : p ∈ m.map Prod.snd := List.mem_map_of_mem Prod.snd hmem
  have hsub := subscribeLoop_subscribe_mem m hostname (m.map Prod.snd) p
    (mkTopic hostname n) hall hp hok
  simp only [main_run]
  exact List.mem_cons_of_mem _ (List.mem_append_left _ hsub)

/-- Witness for the amended C8 at the mapping `{"cpu-fan": 17}`. -/
theorem C8_subscribe_only_at_startup_witness :
    on_connect [("cpu-fan", 17)] "octopi" 0 = [] ∧
    Event.subscribe (mkTopic "octopi" "cpu-fan") 2 ∈
      (main_run [("cpu-fan", 17)] "octopi").1 ∧
    (1 : Nat) ≤ 2 :=
  C8_subscribe_only_at_startup [("cpu-fan", 17)] "octopi" 0 "cpu-fan" 17
    (by decide) (by decide) (by decide)

/-! ### Claim C9 -/

theorem pyEq_str_bool (s : String) (b : Bool) : pyEq (.str s) (.bool b) = false := rfl

theorem pyEq_str_int (s : String) (n : Int) : pyEq (.str s) (.int n) = false := rfl

theorem pyEq_str_str (s t : String) : pyEq (.str s) (.str t) = (s == t) := rfl

/-- The decoded payload strings Python's `value in ON_VALUES + OFF_VALUES`
accepts: the `bool` and `int` tuple members never compare equal to a `str`. -/
theorem pyMem_str_iff (s : String) :
    pyMem (.str s) (ON_VALUES ++ OFF_VALUES) = true ↔
      s ∈ ["1", "on", "true", "True", "0", "off", "false", "False"] := by
  simp [pyMem, ON_VALUES, OFF_VALUES, pyEq_str_bool, pyEq_str_int, pyEq_str_str,
    List.any_cons, List.any_nil]

theorem get_pin_error_keyError (m : List (String × Nat)) (topic : String)
    (e : PyError) (h : get_pin m topic = .error e) : e = PyError.keyError := by
  unfold get_pin at h
  cases hl : m.lookup (lastSeg topic) with
  | none =>
    rw [hl] at h
    injection h with h
    exact h.symm
  | some p =>
    rw [hl] at h
    exact absurd h (by simp)

theorem on_message_error_valueError_iff (m : List (String × Nat))
    (read : Nat → Bool) (st : BridgeState) (topic payload : String) (now : Int) :
    (on_message m read st topic payload now).error = some PyError.valueError ↔
      pyMem (.str payload) (ON_VALUES ++ OFF_VALUES) = false := by
  unfold on_message
  by_cases hm : pyMem (.str payload) (ON_VALUES ++ OFF_VALUES) = false
  · simp [hm]
  · rcases hgp : get_pin m topic with e | gpio
    · have he := get_pin_error_keyError m topic e hgp
      subst he
      simp [hm]
    · by_cases h3 : read gpio = target_state payload
      · simp [hm, h3]
      · simp [hm, h3]

theorem on_message_accept_getLast (m : List (String × Nat)) (read : Nat → Bool)
    (st : BridgeState) (topic payload : String) (now : Int) (gpio : Nat)
    (hacc : pyMem (.str payload) (ON_VALUES ++ OFF_VALUES) = true)
    (hpin : get_pin m topic = .ok gpio)
    (hmism : read gpio ≠ target_state payload) :
    ∃ w, (on_message m read st topic payload now).events.getLast? =
      some (Event.pinWrite gpio (target_state payload) w) := by
  refine ⟨if 0 < (st.nextChange.lookup gpio).getD 0 - now
    then now + ((st.nextChange.lookup gpio).getD 0 - now) else now, ?_⟩
  unfold on_message
  rw [hacc, hpin]
  by_cases hw : 0 < (st.nextChange.lookup gpio).getD 0 - now <;>
    simp [hmism, hw, List.getLast?]

/-- Claim C9 (amended): the set of decoded payload strings the handler accepts
is exactly `{"1","on","true","True","0","off","false","False"}` — the six
spec tokens plus Python-capitalized `"True"`/`"False"`, with no case-policy
closure (other casings such as `"ON"` or `"TRUE"` are rejected with
`ValueError`); an accepted truthy payload maps the pin high and an accepted
falsy payload maps it low. -/
theorem C9_accepted_payloads (m : List (String × Nat)) (read : Nat → Bool)
    (st : BridgeState) (topic payload : String) (now : Int) :
    ((on_message m read st topic payload now).error = some PyError.valueError ↔
      payload ∉ ["1", "on", "true", "True", "0", "off", "false", "False"]) ∧
    (payload ∈ ["1", "on", "true", "True"] → target_state payload = true) ∧
    (payload ∈ ["0", "off", "false", "False"] → target_state payload = false) ∧
    (∀ gpio, get_pin m topic = .ok gpio →
      payload ∈ ["1", "on", "true", "True", "0", "off", "false", "False"] →
      read gpio ≠ target_state payload →
      ∃ w, (on_message m read st topic payload now).events.getLast? =
        some (Event.pinWrite gpio (target_state payload) w)) := by
  refine ⟨?_, ?_, ?_, ?_⟩
  · rw [on_message_error_valueError_iff m read st topic payload now]
    constructor
    · intro h hc
      rw [(pyMem_str_iff payload).mpr hc] at h
      simp at h
    · intro h
      cases hb : pyMem (.str payload) (ON_VALUES ++ OFF_VALUES) with
      | false => rfl
      | true => exact absurd ((pyMem_str_iff payload).mp hb) h
  · intro h
    simp only [List.mem_cons, List.not_mem_nil, or_false] at h
    rcases h with rfl | rfl | rfl | rfl <;> decide
  · intro h
    simp only [List.mem_cons, List.not_mem_nil, or_false] at h
    rcases h with rfl | rfl | rfl | rfl <;> decide
  · intro gpio hgp hmem hmism
    exact on_message_accept_getLast m read st topic payload now gpio
      ((pyMem_str_iff payload).mpr hmem) hgp hmism

/-- Claim C9 counterexample: `"True"` is accepted (it is outside the claimed
six-token set read case-sensitively), while the case variants `"ON"` and
`"TRUE"` are rejected (so no uniform case policy over the six tokens matches
the code's behavior). -/
theorem C9_cex :
    (on_message [("cpu-fan", 17)] (fun _ => false)
        { nextChange := [], disablePinCallback := [] }
        "/homeassistant/octopi/gpio/cpu-fan" "True" 0).error = none ∧
    (on_message [("cpu-fan", 17)] (fun _ => false)
        { nextChange := [], disablePinCallback := [] }
        "/homeassistant/octopi/gpio/cpu-fan" "ON" 0).error =
      some PyError.valueError ∧
    (on_message [("cpu-fan", 17)] (fun _ => false)
        { nextChange := [], disablePinCallback := [] }
        "/homeassistant/octopi/gpio/cpu-fan" "TRUE" 0).error =
      some PyError.valueError ∧
    "True" ∉ (["1", "on", "true", "0", "off", "false"] : List String) := by
  decide

/-- Witness for the amended C9: `"True"` is truthy and `"banana"` raises. -/
theorem C9_accepted_payloads_witness :
    target_state "True" = true ∧
    (on_message [("cpu-fan", 17)] (fun _ => false)
        { nextChange := [], disablePinCallback := [] }
        "/homeassistant/octopi/gpio/cpu-fan" "banana" 0).error =
      some PyError.valueError :=
  ⟨(C9_accepted_payloads [("cpu-fan", 17)] (fun _ => false)
      { nextChange := [], disablePinCallback := [] }
      "/homeassistant/octopi/gpio/cpu-fan" "True" 0).2.1 (by decide),
   ((C9_accepted_payloads [("cpu-fan", 17)] (fun _ => false)
      { nextChange := [], disablePinCallback := [] }
      "/homeassistant/octopi/gpio/cpu-fan" "banana" 0).1).mpr (by decide)⟩

end MqttGpio
